import Mathlib

/-!
Shallow embedding of `batch_fbx_export.py`, a Blender add-on that exports each
visible mesh object of a scene as a separate FBX file for Unity.

The host application (Blender) owns the scene graph, the selection state and
the FBX serializer.  Those host services are modelled explicitly: a scene is a
list of objects together with a selection list, an active object and a
fresh-id counter from which duplicates receive their identity; each `bpy`
operator used by the add-on (`select_all`, `select_set`, `duplicate`,
`transform_apply`, `delete`, `export_scene.fbx`) is a function on that state.
The host export call can fail: Blender surfaces an operator failure as a
raised `RuntimeError`, which the add-on does not catch, so the export step is
modelled as returning either a written file name or the scene at the moment
of the raise.

Vertex coordinates are embedded as rationals: the source manipulates Python
floats, and the spec states its geometric properties "up to floating-point
tolerance", which the exact rational model realises as exact equalities.
-/

namespace BatchFbx

/-- A 3-component vector: the coordinates of a vertex (`v.co`) or an object
location (`obj.location`). -/
structure Vec3 where
  x : ℚ
  y : ℚ
  z : ℚ
  deriving DecidableEq

/-- Blender object types, as far as the add-on distinguishes them:
`obj.type == 'MESH'` versus anything else. -/
inductive ObjType where
  | mesh
  | other
  deriving DecidableEq

/-- A scene object: identity, name, type, visibility (`obj.visible_get()`),
parent link, object-level location, and (for meshes) the vertex list of the
object's mesh datablock.  `bpy.ops.object.duplicate` copies the datablock, so
vertices live on the object here. -/
structure Obj where
  id : Nat
  name : String
  otype : ObjType
  visible : Bool
  parent : Option Nat
  location : Vec3
  vertices : List Vec3
  deriving DecidableEq

/-- The host scene state: `bpy.data.objects`, the current selection,
the active object of the view layer, and a counter from which duplicated
objects receive fresh ids. -/
structure Scene where
  objects : List Obj
  selected : List Nat
  active : Option Nat
  nextId : Nat
  deriving DecidableEq

/-- `bpy.ops.object.select_all(action='DESELECT')`. -/
def deselectAll (s : Scene) : Scene :=
  { s with selected := [] }

/-- `obj.select_set(True)`: selecting an already-selected object is a no-op. -/
def select_set (s : Scene) (i : Nat) : Scene :=
  if i ∈ s.selected then s else { s with selected := s.selected ++ [i] }

/-- A `for o in ...: o.select_set(True)` loop over a list of object ids. -/
def selectIds (s : Scene) (ids : List Nat) : Scene :=
  ids.foldl select_set s

/-- `context.view_layer.objects.active = ...`. -/
def setActive (s : Scene) (a : Option Nat) : Scene :=
  { s with active := a }

/-- The selected objects in scene order: these are what
`bpy.ops.object.duplicate()` copies. -/
def dupSel (s : Scene) : List Obj :=
  s.objects.filter (fun o => decide (o.id ∈ s.selected))

/-- Remap a parent link across duplication: when the parent is itself among
the duplicated objects, the copy is re-parented to the parent's copy (the
`j`-th selected object's copy receives id `s.nextId + j`). -/
def dupParentRemap (s : Scene) (pa : Option Nat) : Option Nat :=
  match pa with
  | none => none
  | some q =>
    match List.findIdx? (fun o => decide (o.id = q)) (dupSel s) with
    | some j => some (s.nextId + j)
    | none => some q

/-- The copies created by `bpy.ops.object.duplicate()`: full copies of the
selected objects (mesh data included) with fresh ids and Blender's `.001`
name suffix. -/
def dupNews (s : Scene) : List Obj :=
  (dupSel s).enum.map (fun p =>
    { p.2 with
        id := s.nextId + p.1,
        name := p.2.name ++ ".001",
        parent := dupParentRemap s p.2.parent })

/-- After duplication the copy of the previously active object is active. -/
def dupActive (s : Scene) : Option Nat :=
  match s.active with
  | none => none
  | some a =>
    match List.findIdx? (fun o => decide (o.id = a)) (dupSel s) with
    | some j => some (s.nextId + j)
    | none => s.active

/-- `bpy.ops.object.duplicate()`: append full copies of the selected objects
to the scene, select exactly the copies, and make the copy of the active
object active. -/
def duplicate (s : Scene) : Scene :=
  { objects := s.objects ++ dupNews s,
    selected := (dupNews s).map Obj.id,
    active := dupActive s,
    nextId := s.nextId + (dupSel s).length }

/-- `bpy.ops.object.transform_apply(location=True, rotation=False,
scale=False)` on a single object: fold the object-level location into the
vertex coordinates (for meshes) and reset the location to the origin. -/
def bakeLocation (o : Obj) : Obj :=
  match o.otype with
  | ObjType.mesh =>
    { o with
        vertices := o.vertices.map (fun v =>
          ⟨v.x + o.location.x, v.y + o.location.y, v.z + o.location.z⟩),
        location := ⟨0, 0, 0⟩ }
  | ObjType.other => { o with location := ⟨0, 0, 0⟩ }

/-- The transform-apply operator acts on every selected object (line 129). -/
def transformApplyLocation (s : Scene) : Scene :=
  { s with objects := s.objects.map (fun o =>
      if o.id ∈ s.selected then bakeLocation o else o) }

/-- One per-axis arithmetic mean, `sum(v.co.a for v in me.vertices) /
len(me.vertices)` (lines 138, 139 and 144). -/
def axisMean (g : Vec3 → ℚ) (vs : List Vec3) : ℚ :=
  (vs.map g).sum / (vs.length : ℚ)

/-- The in-place X/Y shift of lines 140–142. -/
def shiftXY (cx cy : ℚ) (v : Vec3) : Vec3 :=
  ⟨v.x - cx, v.y - cy, v.z⟩

/-- The in-place Z shift of lines 145–146. -/
def shiftZ (cz : ℚ) (v : Vec3) : Vec3 :=
  ⟨v.x, v.y, v.z - cz⟩

/-- The per-mesh centering of lines 136–146: meshes with no vertices are
skipped; otherwise the X and Y centroids are subtracted from every vertex,
and afterwards, when `center_z` is enabled, the Z centroid (computed on the
already-shifted vertices, whose Z coordinates the X/Y shift left untouched)
is subtracted as well. -/
def centerMesh (center_z : Bool) (vs : List Vec3) : List Vec3 :=
  if vs.length = 0 then vs
  else
    let vs1 := vs.map (shiftXY (axisMean Vec3.x vs) (axisMean Vec3.y vs))
    if center_z then vs1.map (shiftZ (axisMean Vec3.z vs1)) else vs1

/-- The centering loop of lines 132–147: every duplicate that is a mesh has
its vertex list centered in place; non-mesh duplicates are skipped. -/
def centerDupes (center_z : Bool) (dupes : List Nat) (s : Scene) : Scene :=
  { s with objects := s.objects.map (fun o =>
      if o.id ∈ dupes ∧ o.otype = ObjType.mesh then
        { o with vertices := centerMesh center_z o.vertices }
      else o) }

/-- `bpy.ops.object.delete()`: remove the selected objects from the scene;
the deleted objects leave the selection, and a deleted active object leaves
the active slot empty. -/
def deleteSelected (s : Scene) : Scene :=
  { objects := s.objects.filter (fun o => !decide (o.id ∈ s.selected)),
    selected := [],
    active := match s.active with
      | some a => if a ∈ s.selected then none else some a
      | none => none,
    nextId := s.nextId }

/-- `obj.children` in Blender: the scene objects whose parent is `obj`. -/
def childrenOf (objs : List Obj) (i : Nat) : List Obj :=
  objs.filter (fun o => decide (o.parent = some i))

/-- `_get_descendants` (lines 190–197) over the flat scene list.  The Python
recursion terminates because Blender keeps the parent relation acyclic; the
fuel argument — instantiated with the number of scene objects, an upper bound
on the hierarchy depth of any acyclic scene — makes the same recursion total
in Lean. -/
def descendantsFuel (objs : List Obj) : Nat → Obj → List Obj
  | 0, _ => []
  | fuel + 1, o =>
    (childrenOf objs o.id).flatMap (fun c => c :: descendantsFuel objs fuel c)

/-- Lines 109–112: the object itself, followed (when `export_children` is
enabled) by all of its descendants. -/
def objectsToExportFlat (export_children : Bool) (s : Scene) (o : Obj) : List Obj :=
  o :: (if export_children then descendantsFuel s.objects s.objects.length o else [])

/-- The characters the sanitizer keeps besides alphanumerics:
`(' ', '-', '_', '.')` (line 202). -/
def allowedPunct : List Char := [' ', '-', '_', '.']

/-- One character of `_safe_filename`: `c if c.isalnum() or c in (' ', '-',
'_', '.') else '_'`.  The alphanumeric test is a parameter because the source
delegates it to the host runtime's `str.isalnum`. -/
def sanitizeChar (isAl : Char → Bool) (c : Char) : Char :=
  if isAl c || allowedPunct.contains c then c else '_'

/-- `_safe_filename` (lines 199–202): replace every character that is neither
alphanumeric nor in the allowed punctuation set with an underscore. -/
def safe_filename (isAl : Char → Bool) (name : String) : String :=
  String.mk (name.data.map (sanitizeChar isAl))

/-- Modelled from the spec: the sanitizer's alphanumeric test is Python's
built-in `str.isalnum`, a host-runtime function that is not part of this
repository.  Python's test is Unicode-aware — true for Unicode letters and
digits, not only ASCII ones.  It is embedded here over the character ranges
this development exercises: ASCII letters and digits, the Latin-1 letters
(U+00C0–U+00FF minus the multiplication and division signs), and the
Arabic-Indic digits (U+0660–U+0669). -/
def pyIsAlnum (c : Char) : Bool :=
  c.isAlpha || c.isDigit
    || (0xC0 ≤ c.toNat && c.toNat ≤ 0xFF && !(c.toNat = 0xD7) && !(c.toNat = 0xF7))
    || (0x660 ≤ c.toNat && c.toNat ≤ 0x669)

/-- One entry of the operator's per-mesh checklist: the object name and its
include toggle.  (The Python field `export` is a Lean keyword, hence
`export_flag`.) -/
structure MeshEntry where
  obj_name : String
  export_flag : Bool
  deriving DecidableEq

/-- Lines 114–118: deselect everything, select the collected group, make the
exported object active — the state handed to `bpy.ops.object.duplicate`. -/
def prepSelect (export_children : Bool) (s : Scene) (obj : Obj) : Scene :=
  setActive
    (selectIds (deselectAll s) ((objectsToExportFlat export_children s obj).map Obj.id))
    (some obj.id)

/-- `dupes = context.selected_objects[:]` (line 120): the ids of the
duplicate group created for one export iteration. -/
def dupeIds (export_children : Bool) (s : Scene) (obj : Obj) : List Nat :=
  (duplicate (prepSelect export_children s obj)).selected

/-- Lines 114–153: the scene right before the host export call — duplicates
created, location baked into the duplicate vertex data, the duplicate meshes
centered, and exactly the duplicates selected with the duplicate root
active. -/
def afterCenter (export_children center_z : Bool) (s : Scene) (obj : Obj) : Scene :=
  let s2 := duplicate (prepSelect export_children s obj)
  let dupes := s2.selected
  let root := s2.active
  let s4 := transformApplyLocation (setActive (selectIds (deselectAll s2) dupes) root)
  setActive (selectIds (deselectAll (centerDupes center_z dupes s4)) dupes) root

/-- `os.path.join(export_dir, safe_name + ".fbx")` (lines 156–157). -/
def exportName (dir : String) (obj : Obj) : String :=
  dir ++ "/" ++ safe_filename pyIsAlnum obj.name ++ ".fbx"

/-- One export iteration (lines 108–179).  The host export call either
returns — after which the iteration deselects everything, selects the
duplicates and deletes them — or raises, in which case the uncaught exception
aborts the operator with the scene as it stood at the call (the duplicate
group still present). -/
def processObject (dir : String) (export_children center_z : Bool) (ok : Bool)
    (s : Scene) (obj : Obj) : Except Scene (Scene × String) :=
  if ok then
    Except.ok
      (deleteSelected
        (selectIds (deselectAll (afterCenter export_children center_z s obj))
          (dupeIds export_children s obj)),
        exportName dir obj)
  else
    Except.error (afterCenter export_children center_z s obj)

/-- Lines 88–96: the visible mesh objects whose names the user left checked
in the dialog. -/
def meshObjectsOf (entries : List MeshEntry) (s : Scene) : List Obj :=
  let names_to_export := (entries.filter MeshEntry.export_flag).map MeshEntry.obj_name
  s.objects.filter (fun o =>
    decide (o.otype = ObjType.mesh) && o.visible && names_to_export.contains o.name)

/-- Lines 181–185: deselect everything, re-select the originally selected
objects, restore the originally active object. -/
def restoreSelection (s : Scene) (origSel : List Nat) (origAct : Option Nat) : Scene :=
  setActive (selectIds (deselectAll s) origSel) origAct

/-- The operator's outcome: `{'FINISHED'}` with the reported export count,
`{'CANCELLED'}` with an error report (missing directory), `{'CANCELLED'}`
with a warning report (empty selection), or an uncaught host exception. -/
inductive Status where
  | finished (exported : Nat)
  | cancelledError
  | cancelledWarning
  | raised
  deriving DecidableEq

/-- The observable result of one `execute` call: the final scene, the files
written into the output directory, and the reported status. -/
structure ExecOut where
  scene : Scene
  files : List String
  status : Status
  deriving DecidableEq

/-- The `for obj in mesh_objects` loop of lines 108–179, followed by the
selection restore of lines 181–185.  `ok idx` tells whether the host export
call of iteration `idx` returns or raises. -/
def exportLoop (dir : String) (export_children center_z : Bool) (ok : Nat → Bool)
    (origSel : List Nat) (origAct : Option Nat) :
    Nat → List Obj → Scene → List String → ExecOut
  | _, [], s, files =>
    ⟨restoreSelection s origSel origAct, files, Status.finished files.length⟩
  | idx, obj :: rest, s, files =>
    match processObject dir export_children center_z (ok idx) s obj with
    | Except.error sErr => ⟨sErr, files, Status.raised⟩
    | Except.ok (s', f) =>
      exportLoop dir export_children center_z ok origSel origAct
        (idx + 1) rest s' (files ++ [f])

/-- `EXPORT_OT_batch_fbx_unity.execute` (lines 82–188).  `dirExists` is the
host's answer to `os.path.isdir(export_dir)`. -/
def execute (dirExists : Bool) (dir : String) (export_children center_z : Bool)
    (entries : List MeshEntry) (ok : Nat → Bool) (s : Scene) : ExecOut :=
  if dirExists then
    let mesh_objects := meshObjectsOf entries s
    if mesh_objects = [] then ⟨s, [], Status.cancelledWarning⟩
    else exportLoop dir export_children center_z ok s.selected s.active 0 mesh_objects s []
  else ⟨s, [], Status.cancelledError⟩

/-- The object hierarchy as the host guarantees it: a finite forest (Blender
rejects cyclic parenting).  A node is an object id together with its
`obj.children`. -/
inductive OTree where
  | node (id : Nat) (children : List OTree)

/-- The `obj.children` view of a hierarchy node. -/
def OTree.children : OTree → List OTree
  | node _ cs => cs

mutual

/-- `_get_descendants` (lines 190–197), transcribed on the hierarchy view:
for each child, append the child and then the child's own descendants. -/
def get_descendants : OTree → List OTree
  | OTree.node _ cs => descendantsOfList cs

/-- The `for child in obj.children` loop body of `_get_descendants`. -/
def descendantsOfList : List OTree → List OTree
  | [] => []
  | c :: rest => c :: (get_descendants c ++ descendantsOfList rest)

end

/-- Lines 109–112 on the hierarchy view: the mesh itself, plus its
descendants when `export_children` is enabled. -/
def objectsToExportTree (export_children : Bool) (t : OTree) : List OTree :=
  t :: (if export_children then get_descendants t else [])

/-- Modelled from the spec's words: `x` is a transitive descendant of `t`
under the parent/child relation. -/
inductive IsDescendant : OTree → OTree → Prop
  | child {c t : OTree} : c ∈ t.children → IsDescendant c t
  | trans {x c t : OTree} : c ∈ t.children → IsDescendant x c → IsDescendant x t

/-- Boolean set equality of two id lists, used to state that a selection is
restored as a set. -/
def eqAsSet (a b : List Nat) : Bool :=
  a.all (fun i => decide (i ∈ b)) && b.all (fun i => decide (i ∈ a))

/-- A concrete mesh object for the concrete runs below.  Its vertex list is
empty so that a whole operator run evaluates by `decide` (the kernel cannot
reduce the irreducible rational arithmetic that non-empty vertex data would
trigger; the geometric claims are settled symbolically instead). -/
def sampleObj : Obj :=
  { id := 0, name := "Cube", otype := ObjType.mesh, visible := true,
    parent := none, location := ⟨0, 0, 0⟩, vertices := [] }

/-- A one-object scene holding `sampleObj`. -/
def sampleScene : Scene :=
  { objects := [sampleObj], selected := [], active := none, nextId := 1 }

/-- A dialog checklist approving `sampleObj`. -/
def sampleEntries : List MeshEntry := [⟨"Cube", true⟩]

/-- The scene a failing export iteration on `sampleScene` aborts with. -/
def failRunScene : Scene :=
  match processObject "out" false false false sampleScene sampleObj with
  | Except.error sErr => sErr
  | Except.ok (sOk, _) => sOk

/-- The scene a successful export iteration on `sampleScene` ends with. -/
def okRunScene : Scene :=
  match processObject "out" false false true sampleScene sampleObj with
  | Except.error sErr => sErr
  | Except.ok (sOk, _) => sOk

/-- The file name a successful export iteration on `sampleScene` writes. -/
def okRunFile : String :=
  match processObject "out" false false true sampleScene sampleObj with
  | Except.error _ => ""
  | Except.ok (_, f) => f

/-- Whether an iteration aborted with a raised host exception. -/
def iterationRaised (r : Except Scene (Scene × String)) : Bool :=
  match r with
  | Except.error _ => true
  | Except.ok _ => false

/-- The objects of a list whose id predates a fresh-id bound: with bound
`s.nextId`, exactly the original (non-duplicate) objects of scene `s`, since
every duplicate receives an id at or above the counter. -/
def keepBelow (N : Nat) (l : List Obj) : List Obj :=
  l.filter (fun o => decide (o.id < N))

end BatchFbx

namespace BatchFbx

/-! ## General list lemmas -/

theorem sum_map_sub (g : Vec3 → ℚ) (c : ℚ) (vs : List Vec3) :
    (vs.map (fun v => g v - c)).sum = (vs.map g).sum - vs.length * c := by
  induction vs with
  | nil => simp
  | cons a t ih =>
    simp only [List.map_cons, List.sum_cons, ih, List.length_cons]
    push_cast
    ring

theorem map_noop (g : Obj → Obj) :
    ∀ l : List Obj, (∀ o ∈ l, g o = o) → l.map g = l := by
  intro l h
  induction l with
  | nil => rfl
  | cons a t ih =>
    rw [List.map_cons, h a (List.mem_cons_self a t), ih fun o ho => h o (List.mem_cons_of_mem a ho)]

/-! ## Selection-state lemmas -/

theorem objects_deselectAll (s : Scene) : (deselectAll s).objects = s.objects := rfl

theorem nextId_deselectAll (s : Scene) : (deselectAll s).nextId = s.nextId := rfl

theorem selected_deselectAll (s : Scene) : (deselectAll s).selected = [] := rfl

theorem objects_setActive (s : Scene) (a : Option Nat) : (setActive s a).objects = s.objects := rfl

theorem nextId_setActive (s : Scene) (a : Option Nat) : (setActive s a).nextId = s.nextId := rfl

theorem selected_setActive (s : Scene) (a : Option Nat) :
    (setActive s a).selected = s.selected := rfl

theorem objects_select_set (s : Scene) (i : Nat) : (select_set s i).objects = s.objects := by
  unfold select_set; split <;> rfl

theorem nextId_select_set (s : Scene) (i : Nat) : (select_set s i).nextId = s.nextId := by
  unfold select_set; split <;> rfl

theorem mem_select_set (s : Scene) (i j : Nat) :
    j ∈ (select_set s i).selected ↔ j ∈ s.selected ∨ j = i := by
  unfold select_set
  split
  · rename_i h
    constructor
    · exact Or.inl
    · rintro (hj | rfl)
      · exact hj
      · exact h
  · simp [List.mem_append]

theorem objects_selectIds (s : Scene) (ids : List Nat) : (selectIds s ids).objects = s.objects := by
  induction ids generalizing s with
  | nil => rfl
  | cons a t ih =>
    show (selectIds (select_set s a) t).objects = s.objects
    rw [ih, objects_select_set]

theorem nextId_selectIds (s : Scene) (ids : List Nat) : (selectIds s ids).nextId = s.nextId := by
  induction ids generalizing s with
  | nil => rfl
  | cons a t ih =>
    show (selectIds (select_set s a) t).nextId = s.nextId
    rw [ih, nextId_select_set]

theorem mem_selectIds (s : Scene) (ids : List Nat) (j : Nat) :
    j ∈ (selectIds s ids).selected ↔ j ∈ s.selected ∨ j ∈ ids := by
  induction ids generalizing s with
  | nil => simp [selectIds]
  | cons a t ih =>
    show j ∈ (selectIds (select_set s a) t).selected ↔ _
    rw [ih, mem_select_set]
    simp [List.mem_cons]
    tauto

/-! ## Sanitizer lemmas -/

theorem sanitizeChar_underscore (isAl : Char → Bool) : sanitizeChar isAl '_' = '_' := by
  unfold sanitizeChar; split <;> rfl

theorem sanitizeChar_idem (isAl : Char → Bool) (c : Char) :
    sanitizeChar isAl (sanitizeChar isAl c) = sanitizeChar isAl c := by
  by_cases h : (isAl c || allowedPunct.contains c) = true
  · have hc : sanitizeChar isAl c = c := by unfold sanitizeChar; exact if_pos h
    rw [hc]
    exact hc
  · have hc : sanitizeChar isAl c = '_' := by unfold sanitizeChar; exact if_neg h
    rw [hc, sanitizeChar_underscore]

theorem safe_filename_data (isAl : Char → Bool) (name : String) :
    (safe_filename isAl name).data = name.data.map (sanitizeChar isAl) := rfl

/-- C7: filename sanitization is idempotent — sanitizing a sanitized string is
the identity — and it rewrites the input character by character, so the output
has the same length as the input. -/
theorem c7_sanitize_idempotent_and_length (name : String) :
    safe_filename pyIsAlnum (safe_filename pyIsAlnum name) = safe_filename pyIsAlnum name
      ∧ (safe_filename pyIsAlnum name).length = name.length := by
  constructor
  · show String.mk ((name.data.map (sanitizeChar pyIsAlnum)).map (sanitizeChar pyIsAlnum)) =
      String.mk (name.data.map (sanitizeChar pyIsAlnum))
    apply congrArg
    rw [List.map_map]
    exact List.map_congr_left fun a _ => sanitizeChar_idem pyIsAlnum a
  · show (name.data.map (sanitizeChar pyIsAlnum)).length = name.data.length
    exact List.length_map _ _

/-- C10: the sanitizer's alphanumeric test is the host's Unicode-aware
`str.isalnum`, so non-ASCII letters and digits such as 'é' and '٣' count as
alphanumeric and are kept; a character of the name is kept at its position
exactly when it is Unicode-alphanumeric or in the allowed punctuation set,
and is otherwise replaced by an underscore. -/
theorem c10_unicode_alnum_kept (name : String) (i : Nat) (c : Char)
    (h : name.data[i]? = some c) :
    (safe_filename pyIsAlnum name).data[i]? =
        some (if (pyIsAlnum c || allowedPunct.contains c) = true then c else '_')
      ∧ pyIsAlnum 'é' = true ∧ pyIsAlnum '٣' = true := by
  refine ⟨?_, by decide, by decide⟩
  rw [safe_filename_data, List.getElem?_map (sanitizeChar pyIsAlnum) name.data i, h]
  rfl

/-- Witness for C10 at a concrete name: in `"é/"` the Unicode letter is kept
and the slash is replaced. -/
theorem c10_witness :
    ((safe_filename pyIsAlnum "é/").data[1]? =
        some (if (pyIsAlnum '/' || allowedPunct.contains '/') = true then '/' else '_')
      ∧ pyIsAlnum 'é' = true ∧ pyIsAlnum '٣' = true) ∧
    ((safe_filename pyIsAlnum "é/").data[0]? =
        some (if (pyIsAlnum 'é' || allowedPunct.contains 'é') = true then 'é' else '_')
      ∧ pyIsAlnum 'é' = true ∧ pyIsAlnum '٣' = true) :=
  ⟨c10_unicode_alnum_kept "é/" 1 '/' (by decide),
    c10_unicode_alnum_kept "é/" 0 'é' (by decide)⟩

/-! ## Centering lemmas -/

theorem centerMesh_eq (center_z : Bool) (vs : List Vec3) (h : ¬ vs.length = 0) :
    centerMesh center_z vs =
      (if center_z then
        (vs.map (shiftXY (axisMean Vec3.x vs) (axisMean Vec3.y vs))).map
          (shiftZ (axisMean Vec3.z
            (vs.map (shiftXY (axisMean Vec3.x vs) (axisMean Vec3.y vs)))))
      else vs.map (shiftXY (axisMean Vec3.x vs) (axisMean Vec3.y vs))) := by
  rw [centerMesh, if_neg h]

theorem axisMean_map (g g' : Vec3 → ℚ) (f : Vec3 → Vec3) (l : List Vec3)
    (hf : ∀ v, g (f v) = g' v) : axisMean g (l.map f) = axisMean g' l := by
  unfold axisMean
  rw [List.length_map, List.map_map]
  congr 1
  exact congrArg List.sum (List.map_congr_left fun a _ => hf a)

theorem length_cast_ne_zero {vs : List Vec3} (h : vs ≠ []) : (vs.length : ℚ) ≠ 0 := by
  have := List.length_pos.mpr h
  exact_mod_cast Nat.pos_iff_ne_zero.mp this

theorem axisMean_sub_const (g : Vec3 → ℚ) (m : ℚ) (vs : List Vec3) (h : vs ≠ []) :
    axisMean (fun v => g v - m) vs = axisMean g vs - m := by
  have hn : (vs.length : ℚ) ≠ 0 := length_cast_ne_zero h
  unfold axisMean
  rw [sum_map_sub, sub_div, mul_comm, mul_div_assoc, div_self hn, mul_one]

/-- C9: the centering step skips meshes with an empty vertex list — they are
returned unchanged and the centroid division is never reached on them. -/
theorem c9_empty_mesh_skipped (center_z : Bool) (vs : List Vec3) (h : vs.length = 0) :
    centerMesh center_z vs = vs := by
  rw [centerMesh, if_pos h]

/-- Witness for C9: centering an empty mesh, with and without vertical
centering, returns it unchanged. -/
theorem c9_witness : centerMesh true [] = [] ∧ centerMesh false [] = [] :=
  ⟨c9_empty_mesh_skipped true [] rfl, c9_empty_mesh_skipped false [] rfl⟩

/-- C1: for a non-empty mesh, centering zeroes the mean of the X coordinates
and the mean of the Y coordinates exactly; the mean of the Z coordinates is
zeroed when vertical centering is enabled and is otherwise untouched, and
with vertical centering disabled every vertex keeps its Z coordinate from the
location-bake step. -/
theorem c1_centering_zeroes_planar_mean (center_z : Bool) (vs : List Vec3) (h : vs ≠ []) :
    axisMean Vec3.x (centerMesh center_z vs) = 0
      ∧ axisMean Vec3.y (centerMesh center_z vs) = 0
      ∧ axisMean Vec3.z (centerMesh center_z vs) = (if center_z then 0 else axisMean Vec3.z vs)
      ∧ (centerMesh false vs).map Vec3.z = vs.map Vec3.z := by
  have hlen : ¬ vs.length = 0 := fun hl => h (List.length_eq_zero.mp hl)
  have hne1 : vs.map (shiftXY (axisMean Vec3.x vs) (axisMean Vec3.y vs)) ≠ [] := by
    intro hnil
    exact h (List.map_eq_nil_iff.mp hnil)
  have hx1 : axisMean Vec3.x (vs.map (shiftXY (axisMean Vec3.x vs) (axisMean Vec3.y vs))) = 0 := by
    rw [axisMean_map Vec3.x (fun v => Vec3.x v - axisMean Vec3.x vs) _ vs fun v => rfl,
      axisMean_sub_const Vec3.x _ vs h, sub_self]
  have hy1 : axisMean Vec3.y (vs.map (shiftXY (axisMean Vec3.x vs) (axisMean Vec3.y vs))) = 0 := by
    rw [axisMean_map Vec3.y (fun v => Vec3.y v - axisMean Vec3.y vs) _ vs fun v => rfl,
      axisMean_sub_const Vec3.y _ vs h, sub_self]
  have hz1 : axisMean Vec3.z (vs.map (shiftXY (axisMean Vec3.x vs) (axisMean Vec3.y vs)))
      = axisMean Vec3.z vs :=
    axisMean_map Vec3.z Vec3.z _ vs fun v => rfl
  have hfalse : centerMesh false vs = vs.map (shiftXY (axisMean Vec3.x vs) (axisMean Vec3.y vs)) := by
    rw [centerMesh_eq false vs hlen, if_neg (by simp)]
  have hmapz : (centerMesh false vs).map Vec3.z = vs.map Vec3.z := by
    rw [hfalse, List.map_map]
    exact List.map_congr_left fun a _ => rfl
  cases center_z with
  | false =>
    refine ⟨?_, ?_, ?_, hmapz⟩
    · rw [hfalse]; exact hx1
    · rw [hfalse]; exact hy1
    · rw [hfalse, if_neg (by simp)]; exact hz1
  | true =>
    rw [centerMesh_eq true vs hlen, if_pos rfl]
    refine ⟨?_, ?_, ?_, hmapz⟩
    · rw [axisMean_map Vec3.x Vec3.x
        (shiftZ (axisMean Vec3.z (vs.map (shiftXY (axisMean Vec3.x vs) (axisMean Vec3.y vs))))) _
        fun v => rfl]
      exact hx1
    · rw [axisMean_map Vec3.y Vec3.y
        (shiftZ (axisMean Vec3.z (vs.map (shiftXY (axisMean Vec3.x vs) (axisMean Vec3.y vs))))) _
        fun v => rfl]
      exact hy1
    · rw [if_pos rfl,
        axisMean_map Vec3.z (fun v => Vec3.z v - axisMean Vec3.z _) _ _ fun v => rfl,
        axisMean_sub_const Vec3.z _ _ hne1, sub_self]

/-- Witness for C1 at a concrete two-vertex mesh with vertical centering off. -/
theorem c1_witness :
    axisMean Vec3.x (centerMesh false [⟨1, 2, 3⟩, ⟨3, 6, 5⟩]) = 0
      ∧ axisMean Vec3.y (centerMesh false [⟨1, 2, 3⟩, ⟨3, 6, 5⟩]) = 0
      ∧ axisMean Vec3.z (centerMesh false [⟨1, 2, 3⟩, ⟨3, 6, 5⟩])
          = (if false then 0 else axisMean Vec3.z [⟨1, 2, 3⟩, ⟨3, 6, 5⟩])
      ∧ (centerMesh false [⟨1, 2, 3⟩, ⟨3, 6, 5⟩]).map Vec3.z = [⟨1, 2, 3⟩, ⟨3, 6, 5⟩].map Vec3.z :=
  c1_centering_zeroes_planar_mean false [⟨1, 2, 3⟩, ⟨3, 6, 5⟩] (by decide)

end BatchFbx

namespace BatchFbx

/-! ## Guard-condition claims -/

/-- C5: when the target directory does not exist the operator cancels with an
error report before touching anything: the scene is returned unmodified and
no file is written. -/
theorem c5_missing_directory_aborts (dir : String) (export_children center_z : Bool)
    (entries : List MeshEntry) (ok : Nat → Bool) (s : Scene) :
    execute false dir export_children center_z entries ok s =
      ⟨s, [], Status.cancelledError⟩ := rfl

/-- C6: when no visible mesh object is approved for export the operator
cancels with a warning report: the scene is returned unmodified and no file
is written. -/
theorem c6_empty_selection_aborts (dir : String) (export_children center_z : Bool)
    (entries : List MeshEntry) (ok : Nat → Bool) (s : Scene)
    (h : meshObjectsOf entries s = []) :
    execute true dir export_children center_z entries ok s =
      ⟨s, [], Status.cancelledWarning⟩ := by
  simp [execute, h]

/-- Witness for C6: an empty checklist approves nothing, so the run on the
sample scene cancels with a warning. -/
theorem c6_witness :
    execute true "out" true false [] (fun _ => true) sampleScene =
      ⟨sampleScene, [], Status.cancelledWarning⟩ :=
  c6_empty_selection_aborts "out" true false [] (fun _ => true) sampleScene (by decide)

/-! ## Hierarchy collection (C8) -/

theorem mem_descendantsOfList {x : OTree} :
    ∀ {cs : List OTree}, x ∈ descendantsOfList cs ↔ ∃ c ∈ cs, x = c ∨ x ∈ get_descendants c := by
  intro cs
  induction cs with
  | nil => simp [descendantsOfList]
  | cons c rest ih =>
    simp only [descendantsOfList, List.mem_cons, List.mem_append, ih]
    constructor
    · rintro (hxc | hd | ⟨d, hd, hcase⟩)
      · exact ⟨c, Or.inl rfl, Or.inl hxc⟩
      · exact ⟨c, Or.inl rfl, Or.inr hd⟩
      · exact ⟨d, Or.inr hd, hcase⟩
    · rintro ⟨d, (rfl | hd), hcase⟩
      · rcases hcase with rfl | hx
        · exact Or.inl rfl
        · exact Or.inr (Or.inl hx)
      · exact Or.inr (Or.inr ⟨d, hd, hcase⟩)

theorem sizeOf_lt_of_mem_children {c t : OTree} (h : c ∈ t.children) :
    sizeOf c < sizeOf t := by
  cases t with
  | node i cs =>
    simp only [OTree.children] at h
    have hc : sizeOf c < sizeOf cs := List.sizeOf_lt_of_mem h
    simp only [OTree.node.sizeOf_spec]
    omega

theorem isDescendant_of_mem_get_descendants :
    ∀ (n : Nat) (t : OTree), sizeOf t ≤ n → ∀ x, x ∈ get_descendants t → IsDescendant x t := by
  intro n
  induction n with
  | zero =>
    intro t ht x hx
    exfalso
    cases t with
    | node i cs =>
      simp only [OTree.node.sizeOf_spec] at ht
      omega
  | succ n ih =>
    intro t ht x hx
    cases t with
    | node i cs =>
      rw [show get_descendants (OTree.node i cs) = descendantsOfList cs from rfl] at hx
      rcases mem_descendantsOfList.mp hx with ⟨c, hc, hcase⟩
      have hcc : c ∈ (OTree.node i cs).children := hc
      rcases hcase with rfl | hxc
      · exact IsDescendant.child hcc
      · have hsz : sizeOf c ≤ n := by
          have := sizeOf_lt_of_mem_children hcc
          simp only [OTree.node.sizeOf_spec] at ht this ⊢
          omega
        exact IsDescendant.trans hcc (ih c hsz x hxc)

theorem mem_get_descendants_of_isDescendant {x t : OTree} (h : IsDescendant x t) :
    x ∈ get_descendants t := by
  induction h with
  | @child t hc =>
    cases t with
    | node i cs =>
      rw [show get_descendants (OTree.node i cs) = descendantsOfList cs from rfl]
      exact mem_descendantsOfList.mpr ⟨x, hc, Or.inl rfl⟩
  | @trans c t hc hd ih =>
    cases t with
    | node i cs =>
      rw [show get_descendants (OTree.node i cs) = descendantsOfList cs from rfl]
      exact mem_descendantsOfList.mpr ⟨c, hc, Or.inr ih⟩

/-- C8: the group collected for one export iteration is the object alone when
include-children is disabled, and the object together with exactly its
transitive parent/child descendants when it is enabled. -/
theorem c8_collected_group (b : Bool) (t x : OTree) :
    x ∈ objectsToExportTree b t ↔ (x = t ∨ (b = true ∧ IsDescendant x t)) := by
  unfold objectsToExportTree
  cases b with
  | false => simp
  | true =>
    rw [if_pos rfl, List.mem_cons]
    constructor
    · rintro (rfl | hx)
      · exact Or.inl rfl
      · exact Or.inr ⟨rfl, isDescendant_of_mem_get_descendants (sizeOf t) t le_rfl x hx⟩
    · rintro (rfl | ⟨-, hd⟩)
      · exact Or.inl rfl
      · exact Or.inr (mem_get_descendants_of_isDescendant hd)

end BatchFbx

namespace BatchFbx

/-! ## Fresh-id bookkeeping: the original objects survive every step -/

theorem keepBelow_map (N : Nat) (g : Obj → Obj) (hg : ∀ o, (g o).id = o.id) :
    ∀ l : List Obj, keepBelow N (l.map g) = (keepBelow N l).map g := by
  intro l
  induction l with
  | nil => rfl
  | cons a t ih =>
    unfold keepBelow at *
    rw [List.map_cons, List.filter_cons, List.filter_cons, hg]
    by_cases h : decide (a.id < N) = true
    · rw [if_pos h, if_pos h, List.map_cons, ih]
    · rw [if_neg h, if_neg h, ih]

theorem keepBelow_map_noop (N : Nat) (g : Obj → Obj) (l : List Obj)
    (h : ∀ o ∈ l, o.id < N → g o = o) : (keepBelow N l).map g = keepBelow N l := by
  apply map_noop
  intro o ho
  unfold keepBelow at ho
  have hm := List.mem_filter.mp ho
  exact h o hm.1 (by simpa using hm.2)

theorem keepBelow_append_high (N : Nat) (A B : List Obj) (h : ∀ o ∈ B, N ≤ o.id) :
    keepBelow N (A ++ B) = keepBelow N A := by
  unfold keepBelow
  rw [List.filter_append]
  have hB : B.filter (fun o => decide (o.id < N)) = [] := by
    apply List.filter_eq_nil_iff.mpr
    intro o ho
    simp only [decide_eq_true_eq]
    exact Nat.not_lt.mpr (h o ho)
  rw [hB, List.append_nil]

theorem keepBelow_filter_high (N : Nat) (q : Obj → Bool) (h : ∀ o : Obj, o.id < N → q o = true) :
    ∀ l : List Obj, keepBelow N (l.filter q) = keepBelow N l := by
  intro l
  induction l with
  | nil => rfl
  | cons a t ih =>
    unfold keepBelow at *
    rw [List.filter_cons]
    by_cases ha : a.id < N
    · have ha' : decide (a.id < N) = true := by simpa using ha
      rw [if_pos (h a ha), List.filter_cons, List.filter_cons, if_pos ha', if_pos ha', ih]
    · have ha' : ¬ decide (a.id < N) = true := by simpa using ha
      by_cases hq : q a = true
      · rw [if_pos hq, List.filter_cons, if_neg ha', List.filter_cons, if_neg ha', ih]
      · rw [if_neg hq, ih, List.filter_cons, if_neg ha']

theorem objects_duplicate (s : Scene) : (duplicate s).objects = s.objects ++ dupNews s := rfl

theorem selected_duplicate (s : Scene) : (duplicate s).selected = (dupNews s).map Obj.id := rfl

theorem nextId_duplicate (s : Scene) :
    (duplicate s).nextId = s.nextId + (dupSel s).length := rfl

theorem dupNews_id_ge (s : Scene) : ∀ o ∈ dupNews s, s.nextId ≤ o.id := by
  intro o ho
  unfold dupNews at ho
  rcases List.mem_map.mp ho with ⟨p, hp, rfl⟩
  exact Nat.le_add_right _ _

theorem selected_duplicate_ge (s : Scene) : ∀ i ∈ (duplicate s).selected, s.nextId ≤ i := by
  intro i hi
  rw [selected_duplicate] at hi
  rcases List.mem_map.mp hi with ⟨o, ho, rfl⟩
  exact dupNews_id_ge s o ho

theorem bakeLocation_id (o : Obj) : (bakeLocation o).id = o.id := by
  unfold bakeLocation
  split <;> rfl

theorem objects_transformApplyLocation (s : Scene) :
    (transformApplyLocation s).objects =
      s.objects.map (fun o => if o.id ∈ s.selected then bakeLocation o else o) := rfl

theorem nextId_transformApplyLocation (s : Scene) :
    (transformApplyLocation s).nextId = s.nextId := rfl

theorem objects_centerDupes (center_z : Bool) (dupes : List Nat) (s : Scene) :
    (centerDupes center_z dupes s).objects =
      s.objects.map (fun o =>
        if o.id ∈ dupes ∧ o.otype = ObjType.mesh then
          { o with vertices := centerMesh center_z o.vertices }
        else o) := rfl

theorem nextId_centerDupes (center_z : Bool) (dupes : List Nat) (s : Scene) :
    (centerDupes center_z dupes s).nextId = s.nextId := rfl

theorem objects_deleteSelected (s : Scene) :
    (deleteSelected s).objects =
      s.objects.filter (fun o => !decide (o.id ∈ s.selected)) := rfl

theorem nextId_deleteSelected (s : Scene) : (deleteSelected s).nextId = s.nextId := rfl

theorem transform_map_id (sel : List Nat) (o : Obj) :
    (if o.id ∈ sel then bakeLocation o else o).id = o.id := by
  split
  · exact bakeLocation_id o
  · rfl

theorem center_map_id (center_z : Bool) (dupes : List Nat) (o : Obj) :
    (if o.id ∈ dupes ∧ o.otype = ObjType.mesh then
      { o with vertices := centerMesh center_z o.vertices }
    else o).id = o.id := by
  split <;> rfl

theorem objects_prepSelect (export_children : Bool) (s : Scene) (obj : Obj) :
    (prepSelect export_children s obj).objects = s.objects := by
  unfold prepSelect
  rw [objects_setActive, objects_selectIds, objects_deselectAll]

theorem nextId_prepSelect (export_children : Bool) (s : Scene) (obj : Obj) :
    (prepSelect export_children s obj).nextId = s.nextId := by
  unfold prepSelect
  rw [nextId_setActive, nextId_selectIds, nextId_deselectAll]

theorem dupeIds_ge (export_children : Bool) (s : Scene) (obj : Obj) (N : Nat)
    (hN : N ≤ s.nextId) : ∀ i ∈ dupeIds export_children s obj, N ≤ i := by
  intro i hi
  have hge := selected_duplicate_ge (prepSelect export_children s obj) i hi
  rw [nextId_prepSelect] at hge
  omega

theorem afterCenter_eq (export_children center_z : Bool) (s : Scene) (obj : Obj) :
    afterCenter export_children center_z s obj =
      setActive
        (selectIds
          (deselectAll
            (centerDupes center_z (dupeIds export_children s obj)
              (transformApplyLocation
                (setActive
                  (selectIds (deselectAll (duplicate (prepSelect export_children s obj)))
                    (dupeIds export_children s obj))
                  (dupActive (prepSelect export_children s obj))))))
          (dupeIds export_children s obj))
        (dupActive (prepSelect export_children s obj)) := rfl

theorem nextId_afterCenter_ge (export_children center_z : Bool) (s : Scene) (obj : Obj)
    (N : Nat) (hN : N ≤ s.nextId) :
    N ≤ (afterCenter export_children center_z s obj).nextId := by
  rw [afterCenter_eq, nextId_setActive, nextId_selectIds, nextId_deselectAll,
    nextId_centerDupes, nextId_transformApplyLocation, nextId_setActive, nextId_selectIds,
    nextId_deselectAll, nextId_duplicate, nextId_prepSelect]
  omega

theorem keepBelow_afterCenter (export_children center_z : Bool) (s : Scene) (obj : Obj)
    (N : Nat) (hN : N ≤ s.nextId) :
    keepBelow N (afterCenter export_children center_z s obj).objects
      = keepBelow N s.objects := by
  have hge : ∀ i ∈ dupeIds export_children s obj, N ≤ i := dupeIds_ge export_children s obj N hN
  have hnews : ∀ o ∈ dupNews (prepSelect export_children s obj), N ≤ o.id := by
    intro o ho
    have hid := dupNews_id_ge (prepSelect export_children s obj) o ho
    rw [nextId_prepSelect] at hid
    omega
  have hsel : ∀ j ∈ (setActive (selectIds (deselectAll (duplicate (prepSelect export_children s obj)))
      (dupeIds export_children s obj)) (dupActive (prepSelect export_children s obj))).selected,
      j ∈ dupeIds export_children s obj := by
    intro j hj
    rw [selected_setActive] at hj
    rcases (mem_selectIds _ _ j).mp hj with h0 | h1
    · rw [selected_deselectAll] at h0
      exact absurd h0 (List.not_mem_nil j)
    · exact h1
  have hnoop1 : ∀ o ∈ s.objects, o.id < N →
      (if o.id ∈ (setActive (selectIds (deselectAll (duplicate (prepSelect export_children s obj)))
          (dupeIds export_children s obj)) (dupActive (prepSelect export_children s obj))).selected
        then bakeLocation o else o) = o := by
    intro o _ holt
    rw [if_neg]
    intro hmem
    have := hge o.id (hsel o.id hmem)
    omega
  have hnoop2 : ∀ o ∈ s.objects, o.id < N →
      (if o.id ∈ dupeIds export_children s obj ∧ o.otype = ObjType.mesh
        then { o with vertices := centerMesh center_z o.vertices } else o) = o := by
    intro o _ holt
    rw [if_neg]
    intro hmem
    have := hge o.id hmem.1
    omega
  rw [afterCenter_eq, objects_setActive, objects_selectIds, objects_deselectAll,
    objects_centerDupes, objects_transformApplyLocation,
    keepBelow_map N _ (center_map_id center_z (dupeIds export_children s obj)),
    keepBelow_map N _ (transform_map_id _),
    objects_setActive, objects_selectIds, objects_deselectAll, objects_duplicate,
    objects_prepSelect,
    keepBelow_append_high N s.objects _ hnews,
    keepBelow_map_noop N _ s.objects hnoop1,
    keepBelow_map_noop N _ s.objects hnoop2]

theorem keepBelow_afterDelete (export_children center_z : Bool) (s : Scene) (obj : Obj)
    (N : Nat) (hN : N ≤ s.nextId) :
    keepBelow N (deleteSelected (selectIds (deselectAll
        (afterCenter export_children center_z s obj))
      (dupeIds export_children s obj))).objects = keepBelow N s.objects := by
  have hge := dupeIds_ge export_children s obj N hN
  rw [objects_deleteSelected]
  have hq : ∀ o : Obj, o.id < N →
      (!decide (o.id ∈ (selectIds (deselectAll (afterCenter export_children center_z s obj))
        (dupeIds export_children s obj)).selected)) = true := by
    intro o holt
    simp only [Bool.not_eq_true', decide_eq_false_iff_not]
    intro hmem
    rcases (mem_selectIds _ _ o.id).mp hmem with h0 | h1
    · rw [selected_deselectAll] at h0
      exact absurd h0 (List.not_mem_nil o.id)
    · have := hge o.id h1
      omega
  rw [keepBelow_filter_high N _ hq, objects_selectIds, objects_deselectAll]
  exact keepBelow_afterCenter export_children center_z s obj N hN

theorem nextId_afterDelete_ge (export_children center_z : Bool) (s : Scene) (obj : Obj)
    (N : Nat) (hN : N ≤ s.nextId) :
    N ≤ (deleteSelected (selectIds (deselectAll
        (afterCenter export_children center_z s obj))
      (dupeIds export_children s obj))).nextId := by
  rw [nextId_deleteSelected, nextId_selectIds, nextId_deselectAll]
  exact nextId_afterCenter_ge export_children center_z s obj N hN

theorem processObject_ok_eq (dir : String) (export_children center_z : Bool)
    (s : Scene) (obj : Obj) :
    processObject dir export_children center_z true s obj =
      Except.ok
        (deleteSelected (selectIds (deselectAll (afterCenter export_children center_z s obj))
          (dupeIds export_children s obj)),
          exportName dir obj) := rfl

theorem processObject_fail_eq (dir : String) (export_children center_z : Bool)
    (s : Scene) (obj : Obj) :
    processObject dir export_children center_z false s obj =
      Except.error (afterCenter export_children center_z s obj) := rfl

end BatchFbx

namespace BatchFbx

/-! ## Loop-level lemmas and the frame-effect claims -/

theorem objects_restoreSelection (s : Scene) (a : List Nat) (b : Option Nat) :
    (restoreSelection s a b).objects = s.objects := by
  unfold restoreSelection
  rw [objects_setActive, objects_selectIds, objects_deselectAll]

theorem keepBelow_exportLoop (dir : String) (export_children center_z : Bool)
    (ok : Nat → Bool) (origSel : List Nat) (origAct : Option Nat) (N : Nat) :
    ∀ (objs : List Obj) (idx : Nat) (s : Scene) (files : List String), N ≤ s.nextId →
      keepBelow N (exportLoop dir export_children center_z ok origSel origAct
          idx objs s files).scene.objects
        = keepBelow N s.objects := by
  intro objs
  induction objs with
  | nil =>
    intro idx s files _
    show keepBelow N (restoreSelection s origSel origAct).objects = keepBelow N s.objects
    rw [objects_restoreSelection]
  | cons o rest ih =>
    intro idx s files hN
    cases hok : ok idx with
    | false =>
      simp only [exportLoop, hok, processObject_fail_eq]
      exact keepBelow_afterCenter export_children center_z s o N hN
    | true =>
      simp only [exportLoop, hok, processObject_ok_eq]
      rw [ih (idx + 1) _ (files ++ [exportName dir o])
        (nextId_afterDelete_ge export_children center_z s o N hN)]
      exact keepBelow_afterDelete export_children center_z s o N hN

theorem execute_empty_eq (dir : String) (export_children center_z : Bool)
    (entries : List MeshEntry) (ok : Nat → Bool) (s : Scene)
    (h : meshObjectsOf entries s = []) :
    execute true dir export_children center_z entries ok s =
      ⟨s, [], Status.cancelledWarning⟩ := by
  simp [execute, h]

theorem execute_run_eq (dir : String) (export_children center_z : Bool)
    (entries : List MeshEntry) (ok : Nat → Bool) (s : Scene)
    (h : ¬ meshObjectsOf entries s = []) :
    execute true dir export_children center_z entries ok s =
      exportLoop dir export_children center_z ok s.selected s.active 0
        (meshObjectsOf entries s) s [] := by
  simp [execute, h]

/-- C3: an invocation of the export command never mutates an original
(non-duplicate) object: in any scene whose objects all predate the fresh-id
counter, filtering the final scene down to the pre-existing ids returns the
original object list — every original object, vertex data included, survives
unchanged (and in order), whether the run finishes, cancels or raises. -/
theorem c3_originals_untouched (dirExists : Bool) (dir : String)
    (export_children center_z : Bool) (entries : List MeshEntry) (ok : Nat → Bool)
    (s : Scene) (hwf : ∀ o ∈ s.objects, o.id < s.nextId) :
    keepBelow s.nextId
        (execute dirExists dir export_children center_z entries ok s).scene.objects
      = s.objects := by
  have hbase : keepBelow s.nextId s.objects = s.objects := by
    unfold keepBelow
    apply List.filter_eq_self.mpr
    intro o ho
    simpa using hwf o ho
  cases dirExists with
  | false => exact hbase
  | true =>
    by_cases hm : meshObjectsOf entries s = []
    · rw [execute_empty_eq dir export_children center_z entries ok s hm]
      exact hbase
    · rw [execute_run_eq dir export_children center_z entries ok s hm,
        keepBelow_exportLoop dir export_children center_z ok s.selected s.active s.nextId
          (meshObjectsOf entries s) 0 s [] le_rfl]
      exact hbase

/-- Witness for C3 on the one-mesh sample scene with a successful run. -/
theorem c3_witness :
    keepBelow sampleScene.nextId
        (execute true "out" true false sampleEntries (fun _ => true) sampleScene).scene.objects
      = sampleScene.objects :=
  c3_originals_untouched true "out" true false sampleEntries (fun _ => true) sampleScene
    (by decide)

/-- C2 counterexample: on a concrete one-mesh scene whose export call raises,
the iteration ends with the raised exception and the duplicate group still in
the scene — the duplicates are not deleted, contradicting the claim that the
group is deleted regardless of whether the export call raises. -/
theorem c2_counterexample_raise_keeps_dupes :
    iterationRaised (processObject "out" false false false sampleScene sampleObj) = true
      ∧ failRunScene.objects.any
          (fun o => decide (o.id ∈ dupeIds false sampleScene sampleObj)) = true := by
  constructor
  · rfl
  · rfl

/-- C2 (amended): when the host export call of an iteration returns, the
iteration deletes its duplicate group — no object of the resulting scene has
an id of the duplicate group; when the call raises, the uncaught exception
skips the deletion. -/
theorem c2_dupes_deleted_when_export_returns (dir : String)
    (export_children center_z : Bool) (s : Scene) (obj : Obj) (s' : Scene) (f : String)
    (h : processObject dir export_children center_z true s obj = Except.ok (s', f)) :
    s'.objects.all (fun o => !decide (o.id ∈ dupeIds export_children s obj)) = true := by
  rw [processObject_ok_eq] at h
  injection h with hpair
  injection hpair with h1 h2
  subst h1
  rw [List.all_eq_true]
  intro o ho
  rw [objects_deleteSelected] at ho
  have hmem := List.mem_filter.mp ho
  have hnotsel : ¬ o.id ∈ (selectIds (deselectAll
      (afterCenter export_children center_z s obj)) (dupeIds export_children s obj)).selected := by
    simpa using hmem.2
  have hnotdup : ¬ o.id ∈ dupeIds export_children s obj := fun hdup =>
    hnotsel ((mem_selectIds _ _ o.id).mpr (Or.inr hdup))
  simpa using hnotdup

/-- Witness for the amended C2 on the one-mesh sample scene. -/
theorem c2_witness :
    okRunScene.objects.all
      (fun o => !decide (o.id ∈ dupeIds false sampleScene sampleObj)) = true :=
  c2_dupes_deleted_when_export_returns "out" false false sampleScene sampleObj
    okRunScene okRunFile rfl

theorem mem_eqAsSet (a b : List Nat) (h : ∀ i, i ∈ a ↔ i ∈ b) : eqAsSet a b = true := by
  unfold eqAsSet
  rw [Bool.and_eq_true, List.all_eq_true, List.all_eq_true]
  constructor
  · intro i hi
    simpa using (h i).mp hi
  · intro i hi
    simpa using (h i).mpr hi

theorem selected_restoreSelection (s : Scene) (a : List Nat) (b : Option Nat) (i : Nat) :
    i ∈ (restoreSelection s a b).selected ↔ i ∈ a := by
  unfold restoreSelection
  rw [selected_setActive, mem_selectIds]
  constructor
  · rintro (h0 | h1)
    · rw [selected_deselectAll] at h0
      exact absurd h0 (List.not_mem_nil i)
    · exact h1
  · exact Or.inr

theorem active_restoreSelection (s : Scene) (a : List Nat) (b : Option Nat) :
    (restoreSelection s a b).active = b := rfl

theorem exportLoop_restores (dir : String) (export_children center_z : Bool)
    (ok : Nat → Bool) (origSel : List Nat) (origAct : Option Nat) :
    ∀ (objs : List Obj) (idx : Nat) (s : Scene) (files : List String),
      (exportLoop dir export_children center_z ok origSel origAct
        idx objs s files).status ≠ Status.raised →
      eqAsSet (exportLoop dir export_children center_z ok origSel origAct
          idx objs s files).scene.selected origSel = true
        ∧ (exportLoop dir export_children center_z ok origSel origAct
          idx objs s files).scene.active = origAct := by
  intro objs
  induction objs with
  | nil =>
    intro idx s files _
    exact ⟨mem_eqAsSet _ _ (fun i => selected_restoreSelection s origSel origAct i),
      active_restoreSelection s origSel origAct⟩
  | cons o rest ih =>
    intro idx s files hst
    cases hok : ok idx with
    | false =>
      exfalso
      apply hst
      simp only [exportLoop, hok, processObject_fail_eq]
    | true =>
      simp only [exportLoop, hok, processObject_ok_eq] at hst ⊢
      exact ih (idx + 1) _ (files ++ [exportName dir o]) hst

/-- C4: whenever the command completes (it does not raise), the selection it
leaves behind equals, as a set, the selection captured before processing, and
the active object is restored exactly — on the cancelled paths nothing was
touched, and on the finished path the captured state is re-applied, however
many objects were exported. -/
theorem c4_selection_restored (dirExists : Bool) (dir : String)
    (export_children center_z : Bool) (entries : List MeshEntry) (ok : Nat → Bool)
    (s : Scene)
    (h : (execute dirExists dir export_children center_z entries ok s).status
      ≠ Status.raised) :
    eqAsSet (execute dirExists dir export_children center_z entries ok s).scene.selected
        s.selected = true
      ∧ (execute dirExists dir export_children center_z entries ok s).scene.active
        = s.active := by
  cases dirExists with
  | false => exact ⟨mem_eqAsSet _ _ (fun i => Iff.rfl), rfl⟩
  | true =>
    by_cases hm : meshObjectsOf entries s = []
    · rw [execute_empty_eq dir export_children center_z entries ok s hm]
      exact ⟨mem_eqAsSet _ _ (fun i => Iff.rfl), rfl⟩
    · rw [execute_run_eq dir export_children center_z entries ok s hm] at h ⊢
      exact exportLoop_restores dir export_children center_z ok s.selected s.active
        (meshObjectsOf entries s) 0 s [] h

/-- Witness for C4 on the one-mesh sample scene with a successful run. -/
theorem c4_witness :
    eqAsSet (execute true "out" true false sampleEntries (fun _ => true)
          sampleScene).scene.selected sampleScene.selected = true
      ∧ (execute true "out" true false sampleEntries (fun _ => true)
          sampleScene).scene.active = sampleScene.active :=
  c4_selection_restored true "out" true false sampleEntries (fun _ => true) sampleScene
    (by decide)

end BatchFbx
